import Mathlib

/-!
Verification development for `keg/cdn.py`: a shallow embedding of the
content-addressable CDN fetch/cache layer (path partitioning, per-content-type
verification policy, atomic cache writer, encrypted object store), with
theorems settling the specification claims against it.

Bytes are modelled as `Nat` (values 0..255), payloads as `List Nat`, and the
local filesystem as an association list from absolute path strings to file
contents.  Fallible operations return `Except KegError`.
-/

namespace Keg

abbrev Bytes := List Nat

/-- The error taxonomy of `keg/exceptions.py` as far as the fetch layer uses
it: `IntegrityError` carries the content label and the requesting key. -/
inductive KegError where
  | integrityError (label : String) (key : String)
  | networkError (msg : String)
  deriving DecidableEq, Repr

/-- Modelled from the spec: `partition_hash` from `keg/utils.py` (not under
`src/`) — the deterministic path-partitioning transform of a key: fixed-width
two-character prefix segments followed by the full key
(`"abcdef..." ↦ "ab/cd/abcdef..."`). -/
def partition_hash (key : String) : String :=
  key.take 2 ++ "/" ++ (key.drop 2).take 2 ++ "/" ++ key

/-- `get_config_path` (cdn.py line 20). -/
def get_config_path (key : String) : String :=
  "/config/" ++ partition_hash key

/-- `get_data_path` (cdn.py line 24). -/
def get_data_path (key : String) : String :=
  "/data/" ++ partition_hash key

/-- `get_data_index_path` (cdn.py line 28). -/
def get_data_index_path (key : String) : String :=
  get_data_path key ++ ".index"

/-- `get_patch_path` (cdn.py line 32). -/
def get_patch_path (key : String) : String :=
  "/patch/" ++ partition_hash key

/-- `get_patch_index_path` (cdn.py line 36). -/
def get_patch_index_path (key : String) : String :=
  get_patch_path key ++ ".index"

/-- `get_config_item_path` (cdn.py line 40). -/
def get_config_item_path (key : String) : String :=
  "/" ++ partition_hash key

/-- Python's `data[-28:]` for a non-negative count `n`: the trailing `n`
elements, or the whole list when it is shorter than `n`. -/
def takeLast (n : Nat) (l : Bytes) : Bytes :=
  l.drop (l.length - n)

/-- Modelled from the spec: `verify_data` from `keg/utils.py` (not under
`src/`) — the generic hash-and-compare verification routine taking a label,
data, key and verify flag; when `verify` is set and the digest of `data`
differs from `key`, it raises `IntegrityError` carrying the label and key.
The digest function itself is an abstract parameter. -/
def verify_data (digest : Bytes → String) (label : String) (data : Bytes)
    (key : String) (verify : Bool) : Except KegError Unit :=
  if verify then
    if digest data = key then Except.ok () else Except.error (KegError.integrityError label key)
  else
    Except.ok ()

/-- A `BaseCDN` backend: the abstract `get_item` capability.  `items p` is the
full content of the stream that `get_item p` opens and that `.read()` drains. -/
structure CDNModel where
  items : String → Bytes

/-- `BaseCDN.fetch_index` (cdn.py lines 63-65): opens the stream at the data
index path and returns the full read.  No `verify_data` call appears in the
source, so the `verify` flag is accepted and ignored. -/
def fetch_index (cdn : CDNModel) (key : String) (verify : Bool) :
    Except KegError Bytes :=
  Except.ok (cdn.items (get_data_index_path key))

/-- `BaseCDN.fetch_patch_index` (cdn.py lines 73-77): reads the full stream at
the patch index path, then calls `verify_data` on `data[-28:]` against the
key, and returns the full payload. -/
def fetch_patch_index (digest : Bytes → String) (cdn : CDNModel) (key : String)
    (verify : Bool) : Except KegError Bytes := do
  let data := cdn.items (get_patch_index_path key)
  let _ ← verify_data digest "patch index" (takeLast 28 data) key verify
  pure data

/-- `BaseCDN.download_data` (cdn.py lines 97-98): returns the stream opened at
the data path; the `verify` parameter is accepted and never used. -/
def download_data (cdn : CDNModel) (key : String) (verify : Bool) :
    Except KegError Bytes :=
  Except.ok (cdn.items (get_data_path key))

/-- Python's `str.lstrip("/")`: remove every leading `/` character. -/
def lstripSlash (s : String) : String :=
  String.mk (s.data.dropWhile (fun c => c = '/'))

/-- Python's `s.split("/")` on the underlying character list: maximal runs of
non-`/` characters, with an empty field between adjacent separators and at a
leading or trailing separator (splitting `""` gives `[""]`). -/
def splitSlash : List Char → List String
  | [] => [""]
  | c :: rest =>
    let r := splitSlash rest
    if c = '/' then "" :: r
    else
      match r with
      | [] => [String.mk [c]]
      | s :: ss => String.mk (c :: s.data) :: ss

/-- Python's `path[:1] == '/'`: does the string begin with a `/`? -/
def headIsSlash (s : String) : Bool :=
  match s.data with
  | '/' :: _ => true
  | _ => false

/-- One pass of CPython's relative-reference resolution loop: `..` pops the
last resolved segment (ignoring underflow), `.` is dropped, anything else is
appended. -/
def resolveSegments (segments : List String) : List String :=
  segments.foldl
    (fun acc seg =>
      if seg = ".." then acc.dropLast
      else if seg = "." then acc
      else acc ++ [seg])
    []

/-- CPython's `segments[1:-1] = filter(None, segments[1:-1])`: drop empty
segments strictly between the first and the last. -/
def filterInterior (segments : List String) : List String :=
  match segments with
  | [] => []
  | first :: rest =>
    match rest.reverse with
    | [] => [first]
    | last :: midrev => first :: (midrev.reverse.filter (fun s => s ≠ "")) ++ [last]

/-- Models CPython's `urllib.parse.urljoin` restricted to the inputs
`RemoteCDN._join_path` feeds it: scheme-less, netloc-less references that are
plain path strings (no `:`, `?`, `#`, and the base does not begin with `//`),
so `urlparse` returns each argument unchanged as its path component.  Mirrors
the CPython algorithm: split the base on `/`, drop its last segment unless it
is empty (i.e. unless the base ends in `/`); an absolute url replaces the base
path wholesale, otherwise the url's segments are appended and empty interior
segments are filtered out; then `.` and `..` segments are resolved and the
result re-joined with `/` (defaulting to `/` when empty). -/
def urljoin (base url : String) : String :=
  if base = "" then url
  else if url = "" then base
  else
    let base_parts0 := splitSlash base.data
    let base_parts :=
      if base_parts0.getLast? ≠ some "" then base_parts0.dropLast else base_parts0
    let segments :=
      if headIsSlash url then splitSlash url.data
      else filterInterior (base_parts ++ splitSlash url.data)
    let resolved := resolveSegments segments
    let resolved :=
      if segments.getLast? = some ".." ∨ segments.getLast? = some "." then
        resolved ++ [""]
      else resolved
    let joined := String.intercalate "/" resolved
    if joined = "" then "/" else joined

/-- `RemoteCDN._join_path` (cdn.py lines 108-115): append a `/` to the base
path and strip every leading `/` from the relative path, then `urljoin`. -/
def RemoteCDN._join_path (base_path path : String) : String :=
  urljoin (base_path ++ "/") (lstripSlash path)

/-! ### Local filesystem model

The on-disk state is an association list from absolute paths to file
contents; directories are implicit (`os.makedirs` has no observable effect on
this view beyond enabling the file writes). -/

abbrev FS := List (String × Bytes)

/-- Content of the file at `p`, or `none` when no such file exists. -/
def readFile (fs : FS) (p : String) : Option Bytes :=
  (fs.find? (fun e => e.1 = p)).map (fun e => e.2)

/-- Remove the file at `p` (no-op when absent). -/
def delFile (fs : FS) (p : String) : FS :=
  fs.filter (fun e => e.1 ≠ p)

/-- Create or truncate-and-write the file at `p` with content `c`
(Python's `open(p, "wb")` followed by writes). -/
def setFile (fs : FS) (p : String) (c : Bytes) : FS :=
  (p, c) :: delFile fs p

/-- `os.rename(src, dst)`: move the file at `src` to `dst`, atomically
replacing any file at `dst`.  (At every call site modelled here the source
file exists; a missing source would raise, modelled as a no-op.) -/
def rename (fs : FS) (src dst : String) : FS :=
  match readFile fs src with
  | some c => setFile (delFile fs src) dst c
  | none => fs

/-- Does the string end with a `/`?  (POSIX `os.path.join` separator check.) -/
def lastIsSlash (s : String) : Bool :=
  match s.data.getLast? with
  | some '/' => true
  | _ => false

/-- POSIX `os.path.join(a, b)` for two components: an absolute `b` discards
`a`; otherwise `b` is appended to `a`, inserting a `/` unless `a` is empty or
already ends with one. -/
def osPathJoin (a b : String) : String :=
  if headIsSlash b then b
  else if a = "" ∨ lastIsSlash a then a ++ b
  else a ++ "/" ++ b

/-- `LocalCDN.get_full_path` (cdn.py lines 150-151):
`os.path.join(base_dir, path.lstrip("/"))`. -/
def LocalCDN.get_full_path (base_dir path : String) : String :=
  osPathJoin base_dir (lstripSlash path)

/-- `LocalCDN.armadillo_objects_dir` (cdn.py line 148):
`os.path.join(armadillo_dir, "objects")`. -/
def LocalCDN.armadillo_objects_dir (armadillo_dir : String) : String :=
  osPathJoin armadillo_dir "objects"

/-- `LocalCDN.get_encrypted_path` (cdn.py lines 153-154):
`os.path.join(armadillo_objects_dir, path.lstrip("/"))`. -/
def LocalCDN.get_encrypted_path (armadillo_dir path : String) : String :=
  osPathJoin (LocalCDN.armadillo_objects_dir armadillo_dir) (lstripSlash path)

/-- `LocalCDN.get_item` (cdn.py lines 162-163): open the file at the full
path; its content, or `none` when the file is absent (file-not-found). -/
def LocalCDN.get_item (fs : FS) (base_dir path : String) : Option Bytes :=
  readFile fs (LocalCDN.get_full_path base_dir path)

/-- `LocalCDN.has_encrypted_file` (cdn.py lines 248-249):
`os.path.exists(get_encrypted_path(path))`. -/
def LocalCDN.has_encrypted_file (fs : FS) (armadillo_dir path : String) : Bool :=
  (readFile fs (LocalCDN.get_encrypted_path armadillo_dir path)).isSome

/-- The chunked-copy loop of `LocalCDN.write_temp_file` (cdn.py lines
229-234): `b = fp.read(buf_size)`; write `b` and continue while it is
non-empty, stop at the first empty read.  `remaining` is the unread tail of
the source and `acc` the bytes written so far; a read returns
`remaining.take bufSize` (so a read of `0` bytes is empty and stops the
loop at once). -/
def copyLoop (bufSize : Nat) (remaining acc : Bytes) : Bytes :=
  let b := remaining.take bufSize
  if h : b = [] then acc
  else copyLoop bufSize (remaining.drop bufSize) (acc ++ b)
termination_by remaining.length
decreasing_by
  simp only [List.length_drop]
  rcases List.take_eq_nil_iff.not.mp h with hn
  have h1 : bufSize ≠ 0 := fun hb => hn (Or.inl hb)
  have h2 : remaining ≠ [] := fun hr => hn (Or.inr hr)
  exact Nat.sub_lt (List.length_pos.mpr h2) (Nat.pos_of_ne_zero h1)

/-- `LocalCDN.write_temp_file` (cdn.py lines 217-236): writes the source into
a fresh file under the temp directory and returns its path.  The fresh name
(`str(uuid4())` in the source) is the `tempName` parameter; `fp` is the
source's full content: with `buf_size < 0` a single `fp.read()` copies it
whole, otherwise the chunked loop runs with reads of `buf_size` bytes. -/
def LocalCDN.write_temp_file (fs : FS) (temp_dir tempName : String)
    (fp : Bytes) (buf_size : Int) : FS × String :=
  let temp_path := osPathJoin temp_dir tempName
  let written := if buf_size < 0 then fp else copyLoop buf_size.toNat fp []
  (setFile fs temp_path written, temp_path)

/-- `LocalCDN.write_encrypted_file` (cdn.py lines 251-260): copy the source
into a temp file via `write_temp_file`, then `os.rename` it to
`get_encrypted_path(path)` (parent directories created on demand). -/
def LocalCDN.write_encrypted_file (fs : FS) (armadillo_dir temp_dir tempName : String)
    (fp : Bytes) (path : String) (buf_size : Int) : FS :=
  let r := LocalCDN.write_temp_file fs temp_dir tempName fp buf_size
  let crypt_path := LocalCDN.get_encrypted_path armadillo_dir path
  rename r.1 r.2 crypt_path

/-! ### The Atomic Cache Writer (`HTTPCacheWrapper`)

The wrapped source stream is modelled as the list of results of its
successive `read(8192)` calls: each element is either a chunk of bytes or a
raised I/O error; an empty chunk (or the end of the list) means the source is
exhausted. -/

inductive Chunk where
  | chunk (b : Bytes)
  | ioError
  deriving DecidableEq, Repr

/-- The drain loop of `HTTPCacheWrapper.close` (cdn.py lines 283-286) fused
with `HTTPCacheWrapper.read` (lines 295-302): every non-empty chunk read is
mirrored into the staging file; returns the bytes written to the staging file
and whether the source was drained to exhaustion (`false` when a read raised,
in which case the bytes before the failure were already written). -/
def drainAcc : List Chunk → Bytes → Bytes × Bool
  | [], acc => (acc, true)
  | Chunk.chunk b :: rest, acc => if b = [] then (acc, true) else drainAcc rest (acc ++ b)
  | Chunk.ioError :: _, acc => (acc, false)

/-- The paths held by an `HTTPCacheWrapper` instance. -/
structure Wrapper where
  realPath : String
  tempPath : String
  deriving DecidableEq, Repr

/-- `HTTPCacheWrapper.__init__` (cdn.py lines 264-273): remembers the target
as `_real_path` and opens the staging file at `_temp_path = path +
".keg_temp"`. -/
def HTTPCacheWrapper.init (path : String) : Wrapper :=
  { realPath := path, tempPath := path ++ ".keg_temp" }

/-- The filesystem effect of `HTTPCacheWrapper.__init__`: parent directories
are created on demand and `open(temp_path, "wb")` creates (or truncates) the
staging file, empty. -/
def HTTPCacheWrapper.initFS (fs : FS) (path : String) : FS :=
  setFile fs (path ++ ".keg_temp") []

/-- `HTTPCacheWrapper.close` (cdn.py lines 282-293): drain the source in 8192
byte reads, mirroring every chunk into the staging file; only when the source
is exhausted, close the staging file and `os.rename` it onto the real path.
When a read raises, the exception propagates before the rename: the staging
file is left holding the bytes written so far and the real path is untouched.
Returns the resulting filesystem and whether the close completed. -/
def HTTPCacheWrapper.close (fs : FS) (w : Wrapper) (src : List Chunk) : FS × Bool :=
  let d := drainAcc src []
  let fs1 := setFile fs w.tempPath d.1
  if d.2 then (rename fs1 w.tempPath w.realPath, true) else (fs1, false)

/-- One full Atomic Cache Writer run against target `path`: construct the
wrapper (creating the empty staging file) and immediately `close()` it, as
`LocalCDN.save_item` does. -/
def cacheWrite (fs : FS) (path : String) (src : List Chunk) : FS × Bool :=
  HTTPCacheWrapper.close (HTTPCacheWrapper.initFS fs path) (HTTPCacheWrapper.init path) src

/-- `LocalCDN.save_item` (cdn.py lines 195-198): persist the open source
stream at `get_full_path(path)` through `HTTPCacheWrapper`. -/
def LocalCDN.save_item (fs : FS) (base_dir : String) (item : List Chunk)
    (path : String) : FS × Bool :=
  cacheWrite fs (LocalCDN.get_full_path base_dir path) item

/-! ### Concrete fixtures used by the witnesses -/

/-- A 28-byte footer of zeros. -/
def footerW : Bytes := List.replicate 28 0

/-- A 30-byte patch-index payload: two header bytes then the zero footer. -/
def payloadW : Bytes := [1, 2] ++ footerW

/-- The same payload with the two header bytes corrupted. -/
def payloadW2 : Bytes := [7, 7] ++ footerW

/-- A digest fixture: maps the zero footer to `"k"`, the short payload
`[1, 2]` to `"s"`, and anything else to `"x"`. -/
def digestW : Bytes → String :=
  fun b => if b = footerW then "k" else if b = [1, 2] then "s" else "x"

/-- A backend serving `payloadW` at every path. -/
def cdnW : CDNModel := ⟨fun _ => payloadW⟩

/-- A backend serving the header-corrupted `payloadW2` at every path. -/
def cdnW2 : CDNModel := ⟨fun _ => payloadW2⟩

/-- A backend serving the 2-byte payload `[1, 2]` at every path. -/
def cdnShort : CDNModel := ⟨fun _ => [1, 2]⟩

/-- A source stream fixture that yields `[3]` and then raises. -/
def srcFail : List Chunk := [Chunk.chunk [3], Chunk.ioError]

/-- A source stream fixture that yields `[1, 2]` then `[3]` then is
exhausted. -/
def srcOk : List Chunk := [Chunk.chunk [1, 2], Chunk.chunk [3]]

/-! ### Helper lemmas about the filesystem model -/

theorem readFile_setFile_self (fs : FS) (p : String) (c : Bytes) :
    readFile (setFile fs p c) p = some c := by
  simp [readFile, setFile, List.find?]

theorem find_file_filter (l : FS) (p q : String) (h : q ≠ p) :
    List.find? (fun e => e.1 = q) (l.filter (fun e => e.1 ≠ p))
      = List.find? (fun e => e.1 = q) l := by
  induction l with
  | nil => rfl
  | cons e rest ih =>
    by_cases he : e.1 = p
    · have hq : ¬ e.1 = q := fun hc => h (hc ▸ he)
      rw [List.filter_cons_of_neg (by simp [he]), ih,
        List.find?_cons_of_neg _ (by simp [hq])]
    · by_cases hq : e.1 = q
      · rw [List.filter_cons_of_pos (by simp [he]),
          List.find?_cons_of_pos _ (by simp [hq]), List.find?_cons_of_pos _ (by simp [hq])]
      · rw [List.filter_cons_of_pos (by simp [he]),
          List.find?_cons_of_neg _ (by simp [hq]), List.find?_cons_of_neg _ (by simp [hq]), ih]

theorem readFile_delFile_ne (fs : FS) (p q : String) (h : q ≠ p) :
    readFile (delFile fs p) q = readFile fs q := by
  unfold readFile delFile
  rw [find_file_filter fs p q h]

theorem readFile_setFile_ne (fs : FS) (p q : String) (c : Bytes) (h : q ≠ p) :
    readFile (setFile fs p c) q = readFile fs q := by
  have hq : ¬ (p, c).1 = q := fun hc => h hc.symm
  unfold setFile readFile
  rw [List.find?_cons_of_neg _ (by simp [hq])]
  exact readFile_delFile_ne fs p q h

/-- A path never equals itself with the `.keg_temp` suffix appended. -/
theorem keg_temp_ne (p : String) : ¬ (p ++ ".keg_temp" = p) := by
  intro h
  have hl := congrArg String.length h
  rw [String.length_append] at hl
  have h9 : (".keg_temp" : String).length = 9 := rfl
  omega

/-- `data[-n:]` of a payload no longer than `n` is the whole payload. -/
theorem takeLast_eq_self (n : Nat) (l : Bytes) (h : l.length ≤ n) :
    takeLast n l = l := by
  unfold takeLast
  rw [Nat.sub_eq_zero_of_le h, List.drop_zero]

/-- With a positive chunk size the copy loop transfers the source whole. -/
theorem copyLoop_eq (n : Nat) (hn : 0 < n) (rem acc : Bytes) :
    copyLoop n rem acc = acc ++ rem := by
  generalize hlen : rem.length = L
  induction L using Nat.strong_induction_on generalizing rem acc with
  | _ L ih =>
    rw [copyLoop.eq_def]
    dsimp only
    split
    next h =>
      have hrem : rem = [] := by
        rcases List.take_eq_nil_iff.mp h with h0 | h0
        · omega
        · exact h0
      simp [hrem]
    next h =>
      have h2 : rem ≠ [] := fun hr => h (by simp [hr])
      have hlt : (rem.drop n).length < L := by
        rw [List.length_drop]
        subst hlen
        exact Nat.sub_lt (List.length_pos.mpr h2) hn
      rw [ih (rem.drop n).length hlt (rem.drop n) (acc ++ rem.take n) rfl]
      rw [List.append_assoc, List.take_append_drop]

/-- `os.rename` when the source file exists with content `c`. -/
theorem rename_of_found (fs : FS) (src dst : String) (c : Bytes)
    (h : readFile fs src = some c) :
    rename fs src dst = setFile (delFile fs src) dst c := by
  unfold rename
  rw [h]

/-- Case analysis of `fetch_patch_index` under `verify = true`: the outcome is
decided exactly by whether the digest of the trailing 28 bytes equals the
key. -/
theorem fetch_patch_index_cases (digest : Bytes → String) (cdn : CDNModel)
    (key : String) :
    (digest (takeLast 28 (cdn.items (get_patch_index_path key))) = key →
      fetch_patch_index digest cdn key true
        = Except.ok (cdn.items (get_patch_index_path key))) ∧
    (¬ digest (takeLast 28 (cdn.items (get_patch_index_path key))) = key →
      fetch_patch_index digest cdn key true
        = Except.error (KegError.integrityError "patch index" key)) := by
  constructor
  · intro h
    simp [fetch_patch_index, verify_data, h, bind, Except.bind, pure, Except.pure]
  · intro h
    simp [fetch_patch_index, verify_data, h, bind, Except.bind, pure, Except.pure]

/-! ### Claim theorems -/

/-- C1 (counterexample): the claimed join table is false on the code.
`_join_path` strips every leading separator from the relative path before
joining, so for base `/foo/bar` joining the anchored `/baz` yields
`/foo/bar/baz` (not `/baz` — an anchored path never overrides the prefix) and
joining `baz` yields `/foo/bar/baz` (not `/foo/baz`). -/
theorem join_path_claim_cex :
    ¬ (RemoteCDN._join_path "/foo/bar" "/baz" = "/baz" ∧
       RemoteCDN._join_path "/foo/bar" "baz" = "/foo/baz" ∧
       RemoteCDN._join_path "/foo/bar/" "baz" = "/foo/bar/baz") := by
  decide

/-- C1 (amended): `_join_path` always appends — it adds a trailing separator
to the base (collapsing duplicates) and strips every leading separator from
the relative path, so for base `/foo/bar` joining `/baz` yields
`/foo/bar/baz`, joining `baz` yields `/foo/bar/baz`, and for base `/foo/bar/`
joining `baz` yields `/foo/bar/baz`. -/
theorem join_path_always_appends :
    RemoteCDN._join_path "/foo/bar" "/baz" = "/foo/bar/baz" ∧
    RemoteCDN._join_path "/foo/bar" "baz" = "/foo/bar/baz" ∧
    RemoteCDN._join_path "/foo/bar/" "baz" = "/foo/bar/baz" := by
  decide

/-- C2 (counterexample): the staging path opened by `HTTPCacheWrapper` is the
target path with the fixed suffix `.keg_temp`, not a uniquely suffixed name:
two writer instances created for the same target `/cache/item` open the very
same staging path (so the claimed distinctness fails), and the second
writer's `__init__` re-truncates the first writer's staging file, leaving the
filesystem exactly as after the first `__init__`. -/
theorem cache_writer_staging_cex :
    (HTTPCacheWrapper.init "/cache/item").tempPath = "/cache/item.keg_temp" ∧
    ¬ ((HTTPCacheWrapper.init "/cache/item").tempPath
        ≠ (HTTPCacheWrapper.init "/cache/item").tempPath) ∧
    HTTPCacheWrapper.initFS (HTTPCacheWrapper.initFS [] "/cache/item") "/cache/item"
      = HTTPCacheWrapper.initFS [] "/cache/item" := by
  decide

/-- C2 (amended): every writer instance for target `p` stages into the file
`p ++ ".keg_temp"` — a deterministic path with a fixed suffix, so any two
writer instances created for the same target path share one staging file. -/
theorem cache_writer_staging_fixed (p : String) :
    (HTTPCacheWrapper.init p).tempPath = p ++ ".keg_temp" := rfl

/-- C3 (counterexample): the encrypted-object store is NOT addressed through
the partition function.  For object path `abcdef0123` under armadillo root
`/arm`, `write_encrypted_file` places the file at `/arm/objects/abcdef0123`
(the raw path), while the partitioned location would be
`/arm/objects/ab/cd/abcdef0123`, where no file appears. -/
theorem encrypted_store_partition_cex :
    LocalCDN.get_encrypted_path "/arm" "abcdef0123" = "/arm/objects/abcdef0123" ∧
    osPathJoin (LocalCDN.armadillo_objects_dir "/arm") (partition_hash "abcdef0123")
      = "/arm/objects/ab/cd/abcdef0123" ∧
    readFile (LocalCDN.write_encrypted_file [] "/arm" "/tmpdir" "u1" [7] "abcdef0123" (-1))
      "/arm/objects/ab/cd/abcdef0123" = none ∧
    readFile (LocalCDN.write_encrypted_file [] "/arm" "/tmpdir" "u1" [7] "abcdef0123" (-1))
      "/arm/objects/abcdef0123" = some [7] := by
  decide

/-- C3 (amended): `write_encrypted_file(fp, object_path)` places the file at
`<armadillo_root>/objects/<object_path.lstrip("/")>` — the raw object path,
with no partition function applied — and `has_encrypted_file(object_path)`
tests existence of that same location. -/
theorem encrypted_store_raw_path (fs : FS) (arm td tn : String)
    (content : Bytes) (path : String) :
    LocalCDN.get_encrypted_path arm path
      = osPathJoin (LocalCDN.armadillo_objects_dir arm) (lstripSlash path) ∧
    readFile (LocalCDN.write_encrypted_file fs arm td tn content path (-1))
      (LocalCDN.get_encrypted_path arm path) = some content ∧
    LocalCDN.has_encrypted_file
      (LocalCDN.write_encrypted_file fs arm td tn content path (-1)) arm path = true := by
  have hw : readFile (LocalCDN.write_encrypted_file fs arm td tn content path (-1))
      (LocalCDN.get_encrypted_path arm path) = some content := by
    unfold LocalCDN.write_encrypted_file LocalCDN.write_temp_file
    dsimp only
    rw [if_pos (by norm_num)]
    rw [rename_of_found _ _ _ content (readFile_setFile_self _ _ _)]
    exact readFile_setFile_self _ _ _
  exact ⟨rfl, hw, by rw [LocalCDN.has_encrypted_file, hw]; rfl⟩

/-- C4: `fetch_index` reads and returns the full stream at the data-index
path and never performs verification — for every backend, key, payload and
both values of the flag the result is `ok` with the stream's content (never
an `IntegrityError`), and it does not depend on the flag at all. -/
theorem fetch_index_no_verify (cdn : CDNModel) (key : String) (v1 v2 : Bool) :
    fetch_index cdn key v1 = Except.ok (cdn.items (get_data_index_path key)) ∧
    fetch_index cdn key v1 = fetch_index cdn key v2 :=
  ⟨rfl, rfl⟩

/-- C5: with `verify = true`, `fetch_patch_index` checks only the trailing 28
bytes of the payload against the key: whenever the digest of the last 28
bytes equals the key it returns the full payload `ok` (for every such
payload, hence also when bytes outside the last 28 are corrupted), and
whenever the digest of the last 28 bytes differs from the key it raises
`IntegrityError`. -/
theorem fetch_patch_index_footer_only (digest : Bytes → String)
    (cdn : CDNModel) (key : String) :
    (digest (takeLast 28 (cdn.items (get_patch_index_path key))) = key →
      fetch_patch_index digest cdn key true
        = Except.ok (cdn.items (get_patch_index_path key))) ∧
    (¬ digest (takeLast 28 (cdn.items (get_patch_index_path key))) = key →
      fetch_patch_index digest cdn key true
        = Except.error (KegError.integrityError "patch index" key)) :=
  fetch_patch_index_cases digest cdn key

/-- C5 witness: on the 30-byte fixture payload the digest of the zero footer
is `"k"`, so fetching with key `"k"` succeeds and returns the payload whole,
fetching with key `"zz"` raises `IntegrityError`, and the header-corrupted
payload (same footer) still succeeds with key `"k"`. -/
theorem fetch_patch_index_footer_only_witness :
    fetch_patch_index digestW cdnW "k" true = Except.ok payloadW ∧
    fetch_patch_index digestW cdnW "zz" true
      = Except.error (KegError.integrityError "patch index" "zz") ∧
    fetch_patch_index digestW cdnW2 "k" true = Except.ok payloadW2 :=
  ⟨(fetch_patch_index_footer_only digestW cdnW "k").1 (by decide),
   (fetch_patch_index_footer_only digestW cdnW "zz").2 (by decide),
   (fetch_patch_index_footer_only digestW cdnW2 "k").1 (by decide)⟩

/-- C6: no-partial-file atomicity — when the source fails (a read raises)
partway through being drained by the Atomic Cache Writer, the target path
afterwards holds exactly what it held before the write (absent stays absent,
content stays byte-identical): the rename only happens after exhaustion. -/
theorem cache_write_no_partial (fs : FS) (path : String) (src : List Chunk)
    (h : (drainAcc src []).2 = false) :
    readFile (cacheWrite fs path src).1 path = readFile fs path := by
  unfold cacheWrite HTTPCacheWrapper.close HTTPCacheWrapper.init HTTPCacheWrapper.initFS
  dsimp only
  rw [h, if_neg Bool.false_ne_true]
  dsimp only
  rw [readFile_setFile_ne _ _ _ _ (fun hc => keg_temp_ne path hc.symm),
    readFile_setFile_ne _ _ _ _ (fun hc => keg_temp_ne path hc.symm)]

/-- C6 witness: a source that yields `[3]` and then raises leaves the
pre-existing content `[9, 9]` at the target untouched. -/
theorem cache_write_no_partial_witness :
    (drainAcc srcFail []).2 = false ∧
    readFile (cacheWrite [("/cache/x", [9, 9])] "/cache/x" srcFail).1 "/cache/x"
      = readFile [("/cache/x", [9, 9])] "/cache/x" :=
  ⟨by decide, cache_write_no_partial [("/cache/x", [9, 9])] "/cache/x" srcFail (by decide)⟩

/-- C7: round-trip — writing a payload that streams as `C` into the Local
Source via `save_item` (the Atomic Cache Writer) and reading the same
logical path back with `get_item` yields exactly `C`, byte-for-byte. -/
theorem save_item_roundtrip (fs : FS) (base_dir : String) (src : List Chunk)
    (path : String) (C : Bytes) (h : drainAcc src [] = (C, true)) :
    LocalCDN.get_item (LocalCDN.save_item fs base_dir src path).1 base_dir path
      = some C := by
  unfold LocalCDN.get_item LocalCDN.save_item cacheWrite HTTPCacheWrapper.close
    HTTPCacheWrapper.init HTTPCacheWrapper.initFS
  dsimp only
  rw [h]
  dsimp only
  rw [rename_of_found _ _ _ C (readFile_setFile_self _ _ _)]
  exact readFile_setFile_self _ _ _

/-- C7 witness: streaming `[1, 2]` then `[3]` through `save_item` and reading
the logical path back yields `[1, 2, 3]`. -/
theorem save_item_roundtrip_witness :
    drainAcc srcOk [] = ([1, 2, 3], true) ∧
    LocalCDN.get_item (LocalCDN.save_item [] "/base" srcOk "/data/ab").1 "/base" "/data/ab"
      = some [1, 2, 3] :=
  ⟨by decide, save_item_roundtrip [] "/base" srcOk "/data/ab" [1, 2, 3] (by decide)⟩

/-- C8: `download_data` returns the stream opened at the data path and
performs no verification at all — for every backend, key, payload and both
flag values the result is `ok` with the stream at the data path (never an
`IntegrityError`) and does not depend on the flag. -/
theorem download_data_no_verify (cdn : CDNModel) (key : String) (v1 v2 : Bool) :
    download_data cdn key v1 = Except.ok (cdn.items (get_data_path key)) ∧
    download_data cdn key v1 = download_data cdn key v2 :=
  ⟨rfl, rfl⟩

/-- C9: `write_temp_file` with `buf_size = 0` creates an empty temp file
regardless of the source's content — the first read of 0 bytes is empty and
ends the loop; with `buf_size < 0` the whole source is copied in a single
read, and with `buf_size > 0` it is copied fully in `buf_size`-sized chunks:
the temp file's content is empty exactly when `buf_size = 0` and the full
source otherwise. -/
theorem write_temp_file_content (fs : FS) (td tn : String) (source : Bytes)
    (buf_size : Int) :
    readFile (LocalCDN.write_temp_file fs td tn source buf_size).1
      (LocalCDN.write_temp_file fs td tn source buf_size).2
      = some (if buf_size = 0 then [] else source) := by
  unfold LocalCDN.write_temp_file
  dsimp only
  rw [readFile_setFile_self]
  congr 1
  by_cases hb : buf_size < 0
  · rw [if_pos hb, if_neg (by omega)]
  · rw [if_neg hb]
    by_cases h0 : buf_size = 0
    · rw [if_pos h0, h0]
      rw [copyLoop.eq_def]
      simp
    · rw [if_neg h0, copyLoop_eq _ (by omega) source []]
      exact (List.nil_append source).symm

/-- C10: a patch-index payload shorter than 28 bytes is verified whole under
`verify = true` — `data[-28:]` of a shorter payload is the entire payload —
so the fetch succeeds exactly when the digest of the whole payload equals the
key and raises `IntegrityError` otherwise. -/
theorem fetch_patch_index_short (digest : Bytes → String) (cdn : CDNModel)
    (key : String) (h : (cdn.items (get_patch_index_path key)).length < 28) :
    takeLast 28 (cdn.items (get_patch_index_path key))
      = cdn.items (get_patch_index_path key) ∧
    (digest (cdn.items (get_patch_index_path key)) = key →
      fetch_patch_index digest cdn key true
        = Except.ok (cdn.items (get_patch_index_path key))) ∧
    (¬ digest (cdn.items (get_patch_index_path key)) = key →
      fetch_patch_index digest cdn key true
        = Except.error (KegError.integrityError "patch index" key)) := by
  have ht := takeLast_eq_self 28 _ (le_of_lt h)
  refine ⟨ht, ?_, ?_⟩
  · intro hd
    exact (fetch_patch_index_cases digest cdn key).1 (by rw [ht]; exact hd)
  · intro hd
    exact (fetch_patch_index_cases digest cdn key).2 (by rw [ht]; exact hd)

/-- C10 witness: the 2-byte payload `[1, 2]` digests (whole) to `"s"`, so the
fetch with key `"s"` succeeds and with key `"zz"` raises `IntegrityError`. -/
theorem fetch_patch_index_short_witness :
    (cdnShort.items (get_patch_index_path "s")).length < 28 ∧
    fetch_patch_index digestW cdnShort "s" true = Except.ok [1, 2] ∧
    fetch_patch_index digestW cdnShort "zz" true
      = Except.error (KegError.integrityError "patch index" "zz") :=
  ⟨by decide,
   (fetch_patch_index_short digestW cdnShort "s" (by decide)).2.1 (by decide),
   (fetch_patch_index_short digestW cdnShort "zz" (by decide)).2.2 (by decide)⟩

end Keg
